import Mathlib

/-!
Verification development for the kenos-by-igo proxy worker.

The repository contains two near-identical Cloudflare-worker request handlers:

* `src/src/worker.js` — prefix-marker mode: the target URL is percent-encoded
  after a `/proxx/` marker in the request path (namespace `Worker` below);
* `src/unnamed/part_000` — bare-path mode: the target URL is percent-encoded
  directly after the leading `/` of the path (namespace `Bound` below).

JavaScript strings are modelled as `List Char` (Unicode scalar values).
The hosting runtime's `new URL(request.url)` parse is modelled by providing
the request's `pathname` and `hostname` directly as fields of `JSRequest`.
The upstream `fetch` is modelled as an oracle
`ProxyRequest → Except (List Char) JSResponse`: `Except.error msg` models a
rejected fetch whose `error.message` is `msg`.  Each handler returns, besides
the response, the outbound `ProxyRequest` it fetched (`none` when no upstream
fetch was performed).
-/

/-- A request as seen by the handler: method, parsed URL path and hostname,
headers (ordered list of name/value pairs) and optional body stream. -/
structure JSRequest where
  method : List Char
  pathname : List Char
  hostname : List Char
  headers : List (List Char × List Char)
  body : Option (List Char)
deriving DecidableEq

/-- The outbound request built by `new Request(targetUrl, {...})`
(worker.js lines 80-85, part_000 lines 82-87). -/
structure ProxyRequest where
  url : List Char
  method : List Char
  headers : List (List Char × List Char)
  body : Option (List Char)
  redirect : List Char
deriving DecidableEq

/-- An HTTP response: status, headers, body. -/
structure JSResponse where
  status : Nat
  headers : List (List Char × List Char)
  body : List Char
deriving DecidableEq

/-- Models JavaScript `String.prototype.startsWith` on our string model. -/
def strStartsWith : List Char → List Char → Bool
  | _, [] => true
  | [], _ :: _ => false
  | c :: s, p :: ps => c = p && strStartsWith s ps

/-- Models JavaScript `String.prototype.indexOf(needle)`: index of the first
occurrence of `needle`, `none` for JavaScript's `-1`. -/
def substrIndex (needle : List Char) : List Char → Option Nat
  | [] => if strStartsWith [] needle then some 0 else none
  | c :: t =>
    if strStartsWith (c :: t) needle then some 0
    else Option.map (· + 1) (substrIndex needle t)

/-- Value of one hexadecimal digit, as accepted by the ECMAScript `Decode`
abstract operation (case-insensitive). -/
def hexDigitVal (c : Char) : Option Nat :=
  let n := c.toNat
  if 48 ≤ n ∧ n ≤ 57 then some (n - 48)
  else if 65 ≤ n ∧ n ≤ 70 then some (n - 55)
  else if 97 ≤ n ∧ n ≤ 102 then some (n - 87)
  else none

/-- Reads one percent-escape `%XY` from the front of the string: the byte
value and the remainder.  `none` when the string does not start with `%`
followed by two hexadecimal digits. -/
def readEscByte : List Char → Option (Nat × List Char)
  | c :: h1 :: h2 :: r =>
    if c = '%' then
      match hexDigitVal h1, hexDigitVal h2 with
      | some d1, some d2 => some (d1 * 16 + d2, r)
      | _, _ => none
    else none
  | _ => none

/-- One step of the ECMAScript `Decode` loop, structurally recursive on a
fuel argument.  Every step consumes at least one character of input and
exactly one unit of fuel, so fuel equal to the input length (as supplied by
`decodeURIComponent` below) never runs out and the `0, _ :: _` arm is
unreachable from the wrapper. -/
def decodeAux : Nat → List Char → Option (List Char)
  | _, [] => some []
  | 0, _ :: _ => none
  | fuel + 1, c :: rest =>
    if c = '%' then
      match readEscByte (c :: rest) with
      | none => none
      | some (b1, r1) =>
        if b1 < 128 then
          Option.map (fun t => Char.ofNat b1 :: t) (decodeAux fuel r1)
        else if b1 < 192 then none
        else if b1 < 224 then
          match readEscByte r1 with
          | none => none
          | some (b2, r2) =>
            if 128 ≤ b2 ∧ b2 < 192 then
              let v := (b1 - 192) * 64 + (b2 - 128)
              if 128 ≤ v then
                Option.map (fun t => Char.ofNat v :: t) (decodeAux fuel r2)
              else none
            else none
        else if b1 < 240 then
          match readEscByte r1 with
          | none => none
          | some (b2, r2) =>
            match readEscByte r2 with
            | none => none
            | some (b3, r3) =>
              if (128 ≤ b2 ∧ b2 < 192) ∧ (128 ≤ b3 ∧ b3 < 192) then
                let v := (b1 - 224) * 4096 + (b2 - 128) * 64 + (b3 - 128)
                if 2048 ≤ v ∧ ¬ (55296 ≤ v ∧ v ≤ 57343) then
                  Option.map (fun t => Char.ofNat v :: t) (decodeAux fuel r3)
                else none
              else none
        else if b1 < 248 then
          match readEscByte r1 with
          | none => none
          | some (b2, r2) =>
            match readEscByte r2 with
            | none => none
            | some (b3, r3) =>
              match readEscByte r3 with
              | none => none
              | some (b4, r4) =>
                if (128 ≤ b2 ∧ b2 < 192) ∧ (128 ≤ b3 ∧ b3 < 192) ∧
                   (128 ≤ b4 ∧ b4 < 192) then
                  let v := (b1 - 240) * 262144 + (b2 - 128) * 4096 +
                           (b3 - 128) * 64 + (b4 - 128)
                  if 65536 ≤ v ∧ v ≤ 1114111 then
                    Option.map (fun t => Char.ofNat v :: t) (decodeAux fuel r4)
                  else none
                else none
        else none
    else Option.map (fun t => c :: t) (decodeAux fuel rest)

/-- Models JavaScript `decodeURIComponent` (ECMAScript `Decode` with empty
reserved set): `%XX` escapes are decoded to bytes, multi-byte sequences must
form valid UTF-8 (no overlong forms, no surrogates, max U+10FFFF); `none`
models the thrown `URIError`.  Any character other than `%` passes through. -/
def decodeURIComponent (s : List Char) : Option (List Char) :=
  decodeAux s.length s

/-- Characters left unescaped by JavaScript `encodeURIComponent`:
`A-Z a-z 0-9 - _ . ! ~ * ' ( )`. -/
def isUnreservedURI (c : Char) : Bool :=
  c.isAlphanum || c = '-' || c = '_' || c = '.' || c = '!' || c = '~' ||
  c = '*' || c = '\'' || c = '(' || c = ')'

/-- UTF-8 bytes of a Unicode scalar value. -/
def utf8EncodeChar (n : Nat) : List Nat :=
  if n < 128 then [n]
  else if n < 2048 then [192 + n / 64, 128 + n % 64]
  else if n < 65536 then [224 + n / 4096, 128 + (n / 64) % 64, 128 + n % 64]
  else [240 + n / 262144, 128 + (n / 4096) % 64, 128 + (n / 64) % 64, 128 + n % 64]

/-- Uppercase hexadecimal digit, as produced by `encodeURIComponent`. -/
def hexDigitChar (n : Nat) : Char :=
  if n < 10 then Char.ofNat ('0'.toNat + n) else Char.ofNat ('A'.toNat + n - 10)

/-- The three-character escape `%XY` of one byte. -/
def percentByte (b : Nat) : List Char :=
  ['%', hexDigitChar (b / 16), hexDigitChar (b % 16)]

/-- Models JavaScript `encodeURIComponent`: unreserved characters pass
through, every other character is replaced by the `%XX` escapes of its
UTF-8 bytes. -/
def encodeURIComponent : List Char → List Char
  | [] => []
  | c :: t =>
    (if isUnreservedURI c then [c]
     else (utf8EncodeChar c.toNat).flatMap percentByte) ++ encodeURIComponent t

/-- Case-insensitive header-name normalisation used by the Fetch `Headers`
object (ASCII lowercase). -/
def lowerName (n : List Char) : List Char := n.map Char.toLower

/-- Models `Headers.prototype.delete`: removes every entry whose name
matches case-insensitively. -/
def headersDelete (hs : List (List Char × List Char)) (n : List Char) :
    List (List Char × List Char) :=
  hs.filter (fun h => lowerName h.1 ≠ lowerName n)

/-- Models `Headers.prototype.set`: overwrite the value of the first
case-insensitive match and drop the other matches, else append. -/
def headersSet (hs : List (List Char × List Char)) (n v : List Char) :
    List (List Char × List Char) :=
  match hs with
  | [] => [(n, v)]
  | h :: t =>
    if lowerName h.1 = lowerName n then (h.1, v) :: headersDelete t n
    else h :: headersSet t n v

/-- All values carried by a header name (case-insensitive match). -/
def headersGetAll (hs : List (List Char × List Char)) (n : List Char) :
    List (List Char) :=
  (hs.filter (fun h => lowerName h.1 = lowerName n)).map Prod.snd

/-- A `new Response(text, { status })` with the implicit plain-text
content type the runtime attaches to string bodies. -/
def textResponse (status : Nat) (body : List Char) : JSResponse :=
  { status := status
    headers := [("Content-Type".toList, "text/plain;charset=UTF-8".toList)]
    body := body }

/-- The result of the upstream fetch: a response, or a rejection carrying
`error.message`. -/
abbrev FetchOracle := ProxyRequest → Except (List Char) JSResponse

/-- The validation test of worker.js line 75 / part_000 line 77:
`!targetUrl || (!targetUrl.startsWith('http://') &&
!targetUrl.startsWith('https://'))` — a falsy (empty) target, or one that
starts with neither scheme. -/
def invalidTarget (t : List Char) : Bool :=
  t.isEmpty || (!strStartsWith t ("http://".toList) &&
                !strStartsWith t ("https://".toList))

/-- The outbound request of worker.js lines 80-85 / part_000 lines 82-87:
`new Request(targetUrl, { method, headers, body, redirect: 'follow' })`
reusing the inbound method, headers and body. -/
def mkProxyRequest (request : JSRequest) (targetUrl : List Char) : ProxyRequest :=
  { url := targetUrl, method := request.method, headers := request.headers,
    body := request.body, redirect := "follow".toList }

namespace Worker

/-- The HTML template of `createRootResponse` in `src/src/worker.js`
(lines 18-41), with the deployment hostname interpolated. -/
def rootHtml (hostname : List Char) : List Char :=
  ("\n    <!DOCTYPE html>\n    <html lang=\"en\">\n    <head>\n        <meta charset=\"UTF-8\">\n        <meta name=\"viewport\" content=\"width=device-width, initial-scale=1.0\">\n        <title>KENOS PROXX Root by ig0</title>\n        <script src=\"https://cdn.tailwindcss.com\"></script>\n        <style>\n          body \x7b background-color: black; font-family: sans-serif; color: white; display: flex; align-items: center; justify-content: center; height: 100vh; margin: 0; \x7d\n          .card \x7b background-color: #1a1a1a; padding: 2rem; border-radius: 0.5rem; border: 1px solid white; text-align: center; \x7d\n        </style>\n    </head>\n    <body>\n        <div class=\"card\">\n            <h1 class=\"text-3xl font-bold mb-4\">KENOS PROXX Service Root</h1>\n            <p class=\"text-sm text-gray-400 mb-6 uppercase tracking-widest font-semibold\">by ig0</p>\n            <p class=\"mb-6\">This path is for worker routing only.</p>\n            <p>Please return to the main homepage to use the PROXX application.</p>\n            <a href=\"https://").toList
  ++ hostname ++
  ("/\" class=\"mt-4 inline-block bg-white text-black font-semibold py-2 px-4 rounded hover:bg-gray-200 transition\">Go to Homepage</a>\n        </div>\n    </body>\n    </html>\n  ").toList

/-- `createRootResponse` of `src/src/worker.js` (lines 17-46): the 200
fallback HTML document. -/
def createRootResponse (hostname : List Char) : JSResponse :=
  { status := 200
    headers := [("Content-Type".toList, "text/html".toList)]
    body := rootHtml hostname }

/-- The routing marker, `const proxyPrefix = '/proxx/'` in the source
(worker.js line 57). -/
def proxyMarker : List Char := "/proxx/".toList

/-- Path extraction of worker.js lines 58-66: `indexOf('/proxx/')`, `none` on
`-1`, else `pathname.substring(index + marker.length)`. -/
def extractEncoded (pathname : List Char) : Option (List Char) :=
  match substrIndex proxyMarker pathname with
  | none => none
  | some i => some (pathname.drop (i + proxyMarker.length))

/-- `handleRequest` of `src/src/worker.js` (lines 53-104), prefix-marker
mode.  Returns the response together with the outbound request actually
fetched (`none` when the handler short-circuits before the fetch). -/
def handleRequest (fetchFn : FetchOracle) (request : JSRequest) :
    JSResponse × Option ProxyRequest :=
  match extractEncoded request.pathname with
  | none => (createRootResponse request.hostname, none)
  | some encodedTargetUrl =>
    match decodeURIComponent encodedTargetUrl with
    | none => (textResponse 400 ("Invalid URL encoding.".toList), none)
    | some targetUrl =>
      if invalidTarget targetUrl then
        (textResponse 400 ("Invalid target URL format.".toList), none)
      else
        let proxyRequest : ProxyRequest := mkProxyRequest request targetUrl
        match fetchFn proxyRequest with
        | Except.ok response =>
          let newResponse : JSResponse :=
            { status := response.status
              headers :=
                headersDelete
                  (headersDelete response.headers
                    ("content-security-policy".toList))
                  ("x-frame-options".toList)
              body := response.body }
          (newResponse, some proxyRequest)
        | Except.error msg =>
          (textResponse 500 ("Failed to fetch target URL: ".toList ++ msg),
           some proxyRequest)

end Worker

namespace Bound

/-- The HTML template of `createRootResponse` in `src/unnamed/part_000`
(lines 20-42); no hostname interpolation in this variant. -/
def rootHtml : List Char :=
  ("\n    <!DOCTYPE html>\n    <html lang=\"en\">\n    <head>\n        <meta charset=\"UTF-8\">\n        <meta name=\"viewport\" content=\"width=device-width, initial-scale=1.0\">\n        <title>KENOS PROXX Root by ig0</title>\n        <script src=\"https://cdn.tailwindcss.com\"></script>\n        <style>\n          body \x7b background-color: black; font-family: sans-serif; color: white; display: flex; align-items: center; justify-content: center; height: 100vh; margin: 0; \x7d\n          .card \x7b background-color: #1a1a1a; padding: 2rem; border-radius: 0.5rem; border: 1px solid white; text-align: center; \x7d\n        </style>\n    </head>\n    <body>\n        <div class=\"card\">\n            <h1 class=\"text-3xl font-bold mb-4\">KENOS PROXX Service Root</h1>\n            <p class=\"text-sm text-gray-400 mb-6 uppercase tracking-widest font-semibold\">by ig0</p>\n            <p class=\"mb-6\">This path is for worker routing only. When accessed directly, it cannot parse a URL.</p>\n            <p>Please use the main Pages URL to enter your target site.</p>\n        </div>\n    </body>\n    </html>\n  ").toList

/-- `createRootResponse` of `src/unnamed/part_000` (lines 19-47). -/
def createRootResponse : JSResponse :=
  { status := 200
    headers := [("Content-Type".toList, "text/html".toList)]
    body := rootHtml }

/-- Path extraction of part_000 lines 59-67: paths of length at most 1 carry
no target; otherwise the encoded target is everything after the first `/`. -/
def extractEncoded (pathname : List Char) : Option (List Char) :=
  if pathname.length ≤ 1 then none else some (pathname.drop 1)

/-- `handleRequest` of `src/unnamed/part_000` (lines 54-109), bare-path
mode.  Identical pipeline, but the 400 message names the schemes and the
success path additionally sets `Access-Control-Allow-Origin: *`. -/
def handleRequest (fetchFn : FetchOracle) (request : JSRequest) :
    JSResponse × Option ProxyRequest :=
  match extractEncoded request.pathname with
  | none => (createRootResponse, none)
  | some encodedTargetUrl =>
    match decodeURIComponent encodedTargetUrl with
    | none => (textResponse 400 ("Invalid URL encoding.".toList), none)
    | some targetUrl =>
      if invalidTarget targetUrl then
        (textResponse 400
          ("Invalid target URL format. Must start with http:// or https://".toList),
         none)
      else
        let proxyRequest : ProxyRequest := mkProxyRequest request targetUrl
        match fetchFn proxyRequest with
        | Except.ok response =>
          let newResponse : JSResponse :=
            { status := response.status
              headers :=
                headersSet
                  (headersDelete
                    (headersDelete response.headers
                      ("content-security-policy".toList))
                    ("x-frame-options".toList))
                  ("Access-Control-Allow-Origin".toList) ("*".toList)
              body := response.body }
          (newResponse, some proxyRequest)
        | Except.error msg =>
          (textResponse 500 ("Failed to fetch target URL: ".toList ++ msg),
           some proxyRequest)

end Bound

/-! Test fixtures used by witness and counterexample theorems. -/

/-- A fetch oracle that always succeeds with an empty-headered 200. -/
def fetchPlainOk : FetchOracle :=
  fun _ => Except.ok { status := 200, headers := [], body := [] }

/-- A fetch oracle that always rejects with message `boom`. -/
def fetchBoom : FetchOracle := fun _ => Except.error ("boom".toList)

/-- A GET request with the given path and no headers or body. -/
def mkRequest (p : String) : JSRequest :=
  { method := "GET".toList, pathname := p.toList,
    hostname := "proxy.example".toList, headers := [], body := none }

/-- A fetch oracle that always succeeds with the given upstream response. -/
def fetchOkWith (up : JSResponse) : FetchOracle := fun _ => Except.ok up

/-- A sample upstream response carrying the two stripped security headers
and an ordinary header. -/
def upSample : JSResponse :=
  { status := 203
    headers := [("Content-Security-Policy".toList, "default-src *".toList),
                ("X-Frame-Options".toList, "DENY".toList),
                ("Content-Type".toList, "text/html".toList)]
    body := "UPSTREAM".toList }

/-! Header-algebra lemmas about the Fetch `Headers` operations. -/

theorem headersGetAll_delete_self (hs : List (List Char × List Char))
    (n : List Char) : headersGetAll (headersDelete hs n) n = [] := by
  unfold headersGetAll headersDelete
  induction hs with
  | nil => rfl
  | cons h t ih =>
    simp only [List.filter_cons, decide_eq_true_eq]
    by_cases hc : lowerName h.1 = lowerName n
    · rw [if_neg (by simp [hc])]
      exact ih
    · rw [if_pos (by simp [hc]), List.filter_cons, if_neg (by simp [hc])]
      exact ih

theorem headersGetAll_delete_of_ne (hs : List (List Char × List Char))
    (n m : List Char) (hnm : lowerName m ≠ lowerName n) :
    headersGetAll (headersDelete hs n) m = headersGetAll hs m := by
  unfold headersGetAll headersDelete
  induction hs with
  | nil => rfl
  | cons h t ih =>
    simp only [List.filter_cons, decide_eq_true_eq]
    by_cases hc : lowerName h.1 = lowerName n
    · have hm : ¬ lowerName h.1 = lowerName m := by
        rw [hc]; exact fun e => hnm e.symm
      rw [if_neg (by simp [hc]), if_neg (by simp [hm])]
      exact ih
    · rw [if_pos (by simp [hc])]
      simp only [List.filter_cons, decide_eq_true_eq]
      by_cases hm : lowerName h.1 = lowerName m
      · rw [if_pos hm, if_pos hm, List.map_cons, List.map_cons, ih]
      · rw [if_neg hm, if_neg hm]
        exact ih

theorem headersGetAll_set_self (hs : List (List Char × List Char))
    (n v : List Char) : headersGetAll (headersSet hs n v) n = [v] := by
  induction hs with
  | nil => simp [headersSet, headersGetAll, List.filter_cons]
  | cons h t ih =>
    unfold headersSet
    by_cases hc : lowerName h.1 = lowerName n
    · rw [if_pos hc]
      unfold headersGetAll
      rw [List.filter_cons, if_pos (by simp [hc]), List.map_cons]
      have hd := headersGetAll_delete_self t n
      unfold headersGetAll at hd
      rw [hd]
    · rw [if_neg hc]
      unfold headersGetAll
      rw [List.filter_cons, if_neg (by simp [hc])]
      exact ih

theorem headersGetAll_set_of_ne (hs : List (List Char × List Char))
    (n v m : List Char) (hnm : lowerName m ≠ lowerName n) :
    headersGetAll (headersSet hs n v) m = headersGetAll hs m := by
  induction hs with
  | nil =>
    have hn : ¬ lowerName n = lowerName m := fun e => hnm e.symm
    simp [headersSet, headersGetAll, List.filter_cons, hn]
  | cons h t ih =>
    unfold headersSet
    by_cases hc : lowerName h.1 = lowerName n
    · have hm : ¬ lowerName h.1 = lowerName m := by
        rw [hc]; exact fun e => hnm e.symm
      rw [if_pos hc]
      unfold headersGetAll
      rw [List.filter_cons, List.filter_cons,
        if_neg (by simp [hm]), if_neg (by simp [hm])]
      exact headersGetAll_delete_of_ne t n m hnm
    · rw [if_neg hc]
      unfold headersGetAll
      rw [List.filter_cons, List.filter_cons]
      by_cases hm : lowerName h.1 = lowerName m
      · rw [if_pos (by simp [hm]), if_pos (by simp [hm]),
          List.map_cons, List.map_cons]
        unfold headersGetAll at ih
        rw [ih]
      · rw [if_neg (by simp [hm]), if_neg (by simp [hm])]
        exact ih

/-! String lemmas: search, hexadecimal digits, percent-escapes. -/

theorem strStartsWith_append (p r : List Char) :
    strStartsWith (p ++ r) p = true := by
  induction p with
  | nil => simp [strStartsWith]
  | cons c t ih => simp [strStartsWith, ih]

theorem substrIndex_of_startsWith (needle s : List Char)
    (h : strStartsWith s needle = true) : substrIndex needle s = some 0 := by
  cases s with
  | nil => simp [substrIndex, h]
  | cons c t => simp [substrIndex, h]

theorem hexDigitVal_hexDigitChar (d : Nat) (h : d < 16) :
    hexDigitVal (hexDigitChar d) = some d := by
  interval_cases d <;> decide

theorem readEscByte_percentByte (b : Nat) (hb : b < 256) (l : List Char) :
    readEscByte ('%' :: hexDigitChar (b / 16) :: hexDigitChar (b % 16) :: l) =
      some (b, l) := by
  have h1 : b / 16 < 16 := by omega
  have h2 : b % 16 < 16 := by omega
  have hb1 : b / 16 * 16 + b % 16 = b := by omega
  simp only [readEscByte, hexDigitVal_hexDigitChar _ h1,
    hexDigitVal_hexDigitChar _ h2, if_pos rfl]
  simp [hb1]

/-! One decoding step per UTF-8 sequence length. -/

theorem decodeAux_one_byte (fuel b : Nat) (hb : b < 128) (l : List Char) :
    decodeAux (fuel + 1)
        ('%' :: hexDigitChar (b / 16) :: hexDigitChar (b % 16) :: l) =
      Option.map (fun t => Char.ofNat b :: t) (decodeAux fuel l) := by
  simp only [decodeAux, readEscByte_percentByte b (by omega) l]
  simp [hb]

theorem decodeAux_two_bytes (fuel n : Nat) (h1 : 128 ≤ n) (h2 : n < 2048)
    (l : List Char) :
    decodeAux (fuel + 1)
        ('%' :: hexDigitChar ((192 + n / 64) / 16) ::
         hexDigitChar ((192 + n / 64) % 16) ::
         ('%' :: hexDigitChar ((128 + n % 64) / 16) ::
          hexDigitChar ((128 + n % 64) % 16) :: l)) =
      Option.map (fun t => Char.ofNat n :: t) (decodeAux fuel l) := by
  have hv : (192 + n / 64 - 192) * 64 + (128 + n % 64 - 128) = n := by omega
  simp only [decodeAux, readEscByte_percentByte (192 + n / 64) (by omega) _,
    readEscByte_percentByte (128 + n % 64) (by omega) l, if_true]
  rw [if_neg (by omega), if_neg (by omega), if_pos (by omega),
    if_pos (by omega : 128 ≤ 128 + n % 64 ∧ 128 + n % 64 < 192)]
  rw [hv, if_pos h1]

theorem decodeAux_three_bytes (fuel n : Nat) (h1 : 2048 ≤ n) (h2 : n < 65536)
    (hs : ¬ (55296 ≤ n ∧ n ≤ 57343)) (l : List Char) :
    decodeAux (fuel + 1)
        ('%' :: hexDigitChar ((224 + n / 4096) / 16) ::
         hexDigitChar ((224 + n / 4096) % 16) ::
         ('%' :: hexDigitChar ((128 + (n / 64) % 64) / 16) ::
          hexDigitChar ((128 + (n / 64) % 64) % 16) ::
          ('%' :: hexDigitChar ((128 + n % 64) / 16) ::
           hexDigitChar ((128 + n % 64) % 16) :: l))) =
      Option.map (fun t => Char.ofNat n :: t) (decodeAux fuel l) := by
  have hv : (224 + n / 4096 - 224) * 4096 + (128 + (n / 64) % 64 - 128) * 64 +
      (128 + n % 64 - 128) = n := by omega
  simp only [decodeAux, readEscByte_percentByte (224 + n / 4096) (by omega) _,
    readEscByte_percentByte (128 + (n / 64) % 64) (by omega) _,
    readEscByte_percentByte (128 + n % 64) (by omega) l, if_true]
  rw [if_neg (by omega), if_neg (by omega), if_neg (by omega),
    if_pos (by omega),
    if_pos (by omega :
      (128 ≤ 128 + (n / 64) % 64 ∧ 128 + (n / 64) % 64 < 192) ∧
      (128 ≤ 128 + n % 64 ∧ 128 + n % 64 < 192))]
  rw [hv, if_pos ⟨h1, hs⟩]

theorem decodeAux_four_bytes (fuel n : Nat) (h1 : 65536 ≤ n)
    (h2 : n ≤ 1114111) (l : List Char) :
    decodeAux (fuel + 1)
        ('%' :: hexDigitChar ((240 + n / 262144) / 16) ::
         hexDigitChar ((240 + n / 262144) % 16) ::
         ('%' :: hexDigitChar ((128 + (n / 4096) % 64) / 16) ::
          hexDigitChar ((128 + (n / 4096) % 64) % 16) ::
          ('%' :: hexDigitChar ((128 + (n / 64) % 64) / 16) ::
           hexDigitChar ((128 + (n / 64) % 64) % 16) ::
           ('%' :: hexDigitChar ((128 + n % 64) / 16) ::
            hexDigitChar ((128 + n % 64) % 16) :: l)))) =
      Option.map (fun t => Char.ofNat n :: t) (decodeAux fuel l) := by
  have hv : (240 + n / 262144 - 240) * 262144 + (128 + (n / 4096) % 64 - 128) * 4096 +
      (128 + (n / 64) % 64 - 128) * 64 + (128 + n % 64 - 128) = n := by omega
  simp only [decodeAux, readEscByte_percentByte (240 + n / 262144) (by omega) _,
    readEscByte_percentByte (128 + (n / 4096) % 64) (by omega) _,
    readEscByte_percentByte (128 + (n / 64) % 64) (by omega) _,
    readEscByte_percentByte (128 + n % 64) (by omega) l, if_true]
  rw [if_neg (by omega), if_neg (by omega), if_neg (by omega),
    if_neg (by omega), if_pos (by omega),
    if_pos (by omega :
      (128 ≤ 128 + (n / 4096) % 64 ∧ 128 + (n / 4096) % 64 < 192) ∧
      (128 ≤ 128 + (n / 64) % 64 ∧ 128 + (n / 64) % 64 < 192) ∧
      (128 ≤ 128 + n % 64 ∧ 128 + n % 64 < 192))]
  rw [hv, if_pos ⟨h1, h2⟩]

/-! The encode/decode round trip. -/

theorem decodeAux_piece (fuel : Nat) (c : Char) (l : List Char) :
    decodeAux (fuel + 1)
        ((if isUnreservedURI c then [c]
          else (utf8EncodeChar c.toNat).flatMap percentByte) ++ l) =
      Option.map (fun t => c :: t) (decodeAux fuel l) := by
  by_cases hu : isUnreservedURI c
  · rw [if_pos hu]
    have hc : ¬ c = '%' := fun e => by
      rw [e] at hu; exact absurd hu (by decide)
    simp only [List.cons_append, List.nil_append, decodeAux, if_neg hc]
    rfl
  · rw [if_neg hu]
    have hval : c.toNat < 55296 ∨ (57343 < c.toNat ∧ c.toNat < 1114112) :=
      c.valid
    rcases Nat.lt_or_ge c.toNat 128 with hr | hr
    · rw [show utf8EncodeChar c.toNat = [c.toNat] from by
        unfold utf8EncodeChar; rw [if_pos hr]]
      simp only [List.flatMap_cons, List.flatMap_nil, List.append_nil,
        percentByte, List.cons_append, List.nil_append]
      rw [decodeAux_one_byte fuel c.toNat hr l, Char.ofNat_toNat]
    · rcases Nat.lt_or_ge c.toNat 2048 with hr2 | hr2
      · rw [show utf8EncodeChar c.toNat =
            [192 + c.toNat / 64, 128 + c.toNat % 64] from by
          unfold utf8EncodeChar; rw [if_neg (by omega), if_pos hr2]]
        simp only [List.flatMap_cons, List.flatMap_nil, List.append_nil,
          percentByte, List.cons_append, List.nil_append]
        rw [decodeAux_two_bytes fuel c.toNat hr hr2 l, Char.ofNat_toNat]
      · rcases Nat.lt_or_ge c.toNat 65536 with hr3 | hr3
        · rw [show utf8EncodeChar c.toNat =
              [224 + c.toNat / 4096, 128 + (c.toNat / 64) % 64,
               128 + c.toNat % 64] from by
            unfold utf8EncodeChar
            rw [if_neg (by omega), if_neg (by omega), if_pos hr3]]
          simp only [List.flatMap_cons, List.flatMap_nil, List.append_nil,
            percentByte, List.cons_append, List.nil_append]
          rw [decodeAux_three_bytes fuel c.toNat hr2 hr3 (by omega) l,
            Char.ofNat_toNat]
        · rw [show utf8EncodeChar c.toNat =
              [240 + c.toNat / 262144, 128 + (c.toNat / 4096) % 64,
               128 + (c.toNat / 64) % 64, 128 + c.toNat % 64] from by
            unfold utf8EncodeChar
            rw [if_neg (by omega), if_neg (by omega), if_neg (by omega)]]
          simp only [List.flatMap_cons, List.flatMap_nil, List.append_nil,
            percentByte, List.cons_append, List.nil_append]
          rw [decodeAux_four_bytes fuel c.toNat hr3 (by omega) l,
            Char.ofNat_toNat]

theorem decodeAux_encode (s : List Char) : ∀ fuel, s.length ≤ fuel →
    decodeAux fuel (encodeURIComponent s) = some s := by
  induction s with
  | nil =>
    intro fuel _
    cases fuel <;> simp [encodeURIComponent, decodeAux]
  | cons c t ih =>
    intro fuel hf
    obtain ⟨f, rfl⟩ : ∃ f, fuel = f + 1 :=
      ⟨fuel - 1, by simp at hf; omega⟩
    simp only [encodeURIComponent]
    rw [decodeAux_piece f c (encodeURIComponent t),
      ih f (by simp at hf; omega)]
    rfl

theorem encode_length_ge (s : List Char) :
    s.length ≤ (encodeURIComponent s).length := by
  induction s with
  | nil => simp [encodeURIComponent]
  | cons c t ih =>
    simp only [encodeURIComponent, List.length_append, List.length_cons]
    have hp : 1 ≤ (if isUnreservedURI c then [c]
        else (utf8EncodeChar c.toNat).flatMap percentByte).length := by
      by_cases hu : isUnreservedURI c
      · simp [hu]
      · rw [if_neg hu]
        have hne : utf8EncodeChar c.toNat ≠ [] := by
          unfold utf8EncodeChar; split_ifs <;> simp
        cases hE : utf8EncodeChar c.toNat with
        | nil => exact absurd hE hne
        | cons b bs => simp [percentByte]
    omega

theorem decode_encode (s : List Char) :
    decodeURIComponent (encodeURIComponent s) = some s := by
  unfold decodeURIComponent
  exact decodeAux_encode s _ (encode_length_ge s)

/-! Branch characterizations of the two handlers. -/

theorem Worker.handle_no_marker (f : FetchOracle) (req : JSRequest)
    (hE : Worker.extractEncoded req.pathname = none) :
    Worker.handleRequest f req = (Worker.createRootResponse req.hostname, none) := by
  simp only [Worker.handleRequest, hE]

theorem Worker.handle_escape_err (f : FetchOracle) (req : JSRequest)
    (enc : List Char) (hE : Worker.extractEncoded req.pathname = some enc)
    (hD : decodeURIComponent enc = none) :
    Worker.handleRequest f req =
      (textResponse 400 ("Invalid URL encoding.".toList), none) := by
  simp only [Worker.handleRequest, hE, hD]

theorem Worker.handle_bad_target (f : FetchOracle) (req : JSRequest)
    (enc t : List Char) (hE : Worker.extractEncoded req.pathname = some enc)
    (hD : decodeURIComponent enc = some t) (hT : invalidTarget t = true) :
    Worker.handleRequest f req =
      (textResponse 400 ("Invalid target URL format.".toList), none) := by
  simp only [Worker.handleRequest, hE, hD, hT, if_true]

theorem Worker.handle_do_fetch (f : FetchOracle) (req : JSRequest)
    (enc t : List Char) (hE : Worker.extractEncoded req.pathname = some enc)
    (hD : decodeURIComponent enc = some t) (hT : invalidTarget t = false) :
    Worker.handleRequest f req =
      (match f (mkProxyRequest req t) with
       | Except.ok response =>
         ({ status := response.status
            headers :=
              headersDelete
                (headersDelete response.headers
                  ("content-security-policy".toList))
                ("x-frame-options".toList)
            body := response.body }, some (mkProxyRequest req t))
       | Except.error msg =>
         (textResponse 500 ("Failed to fetch target URL: ".toList ++ msg),
          some (mkProxyRequest req t))) := by
  simp only [Worker.handleRequest, hE, hD, hT]
  rw [if_neg (by simp)]

theorem Bound.handle_short_path (f : FetchOracle) (req : JSRequest)
    (hE : Bound.extractEncoded req.pathname = none) :
    Bound.handleRequest f req = (Bound.createRootResponse, none) := by
  simp only [Bound.handleRequest, hE]

theorem Bound.handle_escape_err_bare (f : FetchOracle) (req : JSRequest)
    (enc : List Char) (hE : Bound.extractEncoded req.pathname = some enc)
    (hD : decodeURIComponent enc = none) :
    Bound.handleRequest f req =
      (textResponse 400 ("Invalid URL encoding.".toList), none) := by
  simp only [Bound.handleRequest, hE, hD]

theorem Bound.handle_bad_target_bare (f : FetchOracle) (req : JSRequest)
    (enc t : List Char) (hE : Bound.extractEncoded req.pathname = some enc)
    (hD : decodeURIComponent enc = some t) (hT : invalidTarget t = true) :
    Bound.handleRequest f req =
      (textResponse 400
        ("Invalid target URL format. Must start with http:// or https://".toList),
       none) := by
  simp only [Bound.handleRequest, hE, hD, hT, if_true]

theorem Bound.handle_do_fetch_bare (f : FetchOracle) (req : JSRequest)
    (enc t : List Char) (hE : Bound.extractEncoded req.pathname = some enc)
    (hD : decodeURIComponent enc = some t) (hT : invalidTarget t = false) :
    Bound.handleRequest f req =
      (match f (mkProxyRequest req t) with
       | Except.ok response =>
         ({ status := response.status
            headers :=
              headersSet
                (headersDelete
                  (headersDelete response.headers
                    ("content-security-policy".toList))
                  ("x-frame-options".toList))
                ("Access-Control-Allow-Origin".toList) ("*".toList)
            body := response.body }, some (mkProxyRequest req t))
       | Except.error msg =>
         (textResponse 500 ("Failed to fetch target URL: ".toList ++ msg),
          some (mkProxyRequest req t))) := by
  simp only [Bound.handleRequest, hE, hD, hT]
  rw [if_neg (by simp)]

/-! Claim theorems. -/

/-- C2: for every URL `u` with scheme `http` or `https`, percent-encoding
`u`, placing the encoding after the `/proxx/` marker (prefix-marker mode)
or directly after the leading `/` (bare-path mode), and running the
handler's extraction and percent-decoding steps yields exactly `u` as the
target URL. -/
theorem c2_roundtrip_target (u : List Char)
    (hsch : (strStartsWith u ("http://".toList) ||
             strStartsWith u ("https://".toList)) = true) :
    ((Worker.extractEncoded (Worker.proxyMarker ++ encodeURIComponent u)).bind
        decodeURIComponent = some u) ∧
    ((Bound.extractEncoded ('/' :: encodeURIComponent u)).bind
        decodeURIComponent = some u) := by
  have hne : u ≠ [] := by
    cases u with
    | nil => exact absurd hsch (by decide)
    | cons c t => exact fun h => List.noConfusion h
  constructor
  · unfold Worker.extractEncoded
    rw [substrIndex_of_startsWith _ _
      (strStartsWith_append Worker.proxyMarker (encodeURIComponent u))]
    simp only [Nat.zero_add, List.drop_left, Option.bind_some]
    exact decode_encode u
  · have hlen : 1 ≤ (encodeURIComponent u).length := by
      have h1 : 1 ≤ u.length := by
        cases u with
        | nil => exact absurd rfl hne
        | cons c t => simp
      exact le_trans h1 (encode_length_ge u)
    unfold Bound.extractEncoded
    rw [if_neg (by simp only [List.length_cons]; omega)]
    simp only [List.drop_succ_cons, List.drop_zero, Option.bind_some]
    exact decode_encode u

/-- Witness for C2 at the concrete URL `http://a`. -/
theorem c2_roundtrip_target_witness :
    ((Worker.extractEncoded
        (Worker.proxyMarker ++ encodeURIComponent ("http://a".toList))).bind
        decodeURIComponent = some ("http://a".toList)) ∧
    ((Bound.extractEncoded ('/' :: encodeURIComponent ("http://a".toList))).bind
        decodeURIComponent = some ("http://a".toList)) :=
  c2_roundtrip_target ("http://a".toList) (by decide)

/-- C3: when the path carries no target (no `/proxx/` marker in
prefix-marker mode; length at most 1 in bare-path mode) the handler
returns exactly the 200 fallback HTML document and performs no upstream
fetch, so in particular it never returns a 4xx or 5xx response. -/
theorem c3_missing_target (f : FetchOracle) (req : JSRequest) :
    (substrIndex Worker.proxyMarker req.pathname = none →
      Worker.handleRequest f req = (Worker.createRootResponse req.hostname, none) ∧
      (Worker.handleRequest f req).1.status = 200) ∧
    (req.pathname.length ≤ 1 →
      Bound.handleRequest f req = (Bound.createRootResponse, none) ∧
      (Bound.handleRequest f req).1.status = 200) := by
  constructor
  · intro hE
    have h : Worker.handleRequest f req =
        (Worker.createRootResponse req.hostname, none) := by
      simp only [Worker.handleRequest, Worker.extractEncoded, hE]
    exact ⟨h, by rw [h]; rfl⟩
  · intro hL
    have h : Bound.handleRequest f req = (Bound.createRootResponse, none) := by
      simp only [Bound.handleRequest, Bound.extractEncoded, if_pos hL]
    exact ⟨h, by rw [h]; rfl⟩

/-- Witness for C3 at the path `/`, which carries no marker and has
length 1. -/
theorem c3_missing_target_witness :
    (Worker.handleRequest fetchPlainOk (mkRequest "/") =
        (Worker.createRootResponse (mkRequest "/").hostname, none) ∧
      (Worker.handleRequest fetchPlainOk (mkRequest "/")).1.status = 200) ∧
    (Bound.handleRequest fetchPlainOk (mkRequest "/") =
        (Bound.createRootResponse, none) ∧
      (Bound.handleRequest fetchPlainOk (mkRequest "/")).1.status = 200) :=
  ⟨(c3_missing_target fetchPlainOk (mkRequest "/")).1 (by decide),
   (c3_missing_target fetchPlainOk (mkRequest "/")).2 (by decide)⟩

/-- C5: whenever the extracted path segment fails percent-decoding, both
handlers return status 400 with the plain-text body
`Invalid URL encoding.` and perform no upstream fetch. -/
theorem c5_invalid_escape (f : FetchOracle) (req : JSRequest)
    (enc : List Char) (hD : decodeURIComponent enc = none) :
    (Worker.extractEncoded req.pathname = some enc →
      Worker.handleRequest f req =
        (textResponse 400 ("Invalid URL encoding.".toList), none)) ∧
    (Bound.extractEncoded req.pathname = some enc →
      Bound.handleRequest f req =
        (textResponse 400 ("Invalid URL encoding.".toList), none)) := by
  constructor
  · intro hE
    simp only [Worker.handleRequest, hE, hD]
  · intro hE
    simp only [Bound.handleRequest, hE, hD]

/-- Witness for C5 at the invalid escape `%zz`. -/
theorem c5_invalid_escape_witness :
    (Worker.handleRequest fetchPlainOk (mkRequest "/proxx/%zz") =
      (textResponse 400 ("Invalid URL encoding.".toList), none)) ∧
    (Bound.handleRequest fetchPlainOk (mkRequest "/%zz") =
      (textResponse 400 ("Invalid URL encoding.".toList), none)) :=
  ⟨(c5_invalid_escape fetchPlainOk (mkRequest "/proxx/%zz") ("%zz".toList)
      (by decide)).1 (by decide),
   (c5_invalid_escape fetchPlainOk (mkRequest "/%zz") ("%zz".toList)
      (by decide)).2 (by decide)⟩

/-- C4: whenever the decoded target does not begin with `http://` and does
not begin with `https://` (the empty string included), both handlers return
status 400 with their plain-text invalid-target-format message and perform
no upstream fetch. -/
theorem c4_invalid_target_format (f : FetchOracle) (req : JSRequest)
    (enc t : List Char) (hD : decodeURIComponent enc = some t)
    (hh : strStartsWith t ("http://".toList) = false)
    (hhs : strStartsWith t ("https://".toList) = false) :
    (Worker.extractEncoded req.pathname = some enc →
      Worker.handleRequest f req =
        (textResponse 400 ("Invalid target URL format.".toList), none)) ∧
    (Bound.extractEncoded req.pathname = some enc →
      Bound.handleRequest f req =
        (textResponse 400
          ("Invalid target URL format. Must start with http:// or https://".toList),
         none)) := by
  have hT : invalidTarget t = true := by
    simp only [invalidTarget, Bool.or_eq_true, Bool.and_eq_true,
      Bool.not_eq_true', List.isEmpty_eq_true]
    exact Or.inr ⟨hh, hhs⟩
  exact ⟨fun hE => Worker.handle_bad_target f req enc t hE hD hT,
         fun hE => Bound.handle_bad_target_bare f req enc t hE hD hT⟩

/-- Witness for C4 at the target `ftp://x`. -/
theorem c4_invalid_target_format_witness :
    (Worker.handleRequest fetchPlainOk (mkRequest "/proxx/ftp%3A%2F%2Fx") =
      (textResponse 400 ("Invalid target URL format.".toList), none)) ∧
    (Bound.handleRequest fetchPlainOk (mkRequest "/ftp%3A%2F%2Fx") =
      (textResponse 400
        ("Invalid target URL format. Must start with http:// or https://".toList),
       none)) :=
  ⟨(c4_invalid_target_format fetchPlainOk (mkRequest "/proxx/ftp%3A%2F%2Fx")
      ("ftp%3A%2F%2Fx".toList) ("ftp://x".toList) (by decide) (by decide)
      (by decide)).1 (by decide),
   (c4_invalid_target_format fetchPlainOk (mkRequest "/ftp%3A%2F%2Fx")
      ("ftp%3A%2F%2Fx".toList) ("ftp://x".toList) (by decide) (by decide)
      (by decide)).2 (by decide)⟩

/-- C6: whenever the upstream fetch rejects with message `msg`, any
request that reaches the fetch (the returned outbound request is `some`)
produces status 500 with body `Failed to fetch target URL: ` followed by
`msg`; the error is converted into a response rather than escaping (both
handlers are total functions of the oracle). -/
theorem c6_fetch_failure (f : FetchOracle) (req : JSRequest)
    (msg : List Char) (hf : ∀ pr, f pr = Except.error msg) :
    ((Worker.handleRequest f req).2.isSome = true →
      (Worker.handleRequest f req).1 =
        textResponse 500 ("Failed to fetch target URL: ".toList ++ msg)) ∧
    ((Bound.handleRequest f req).2.isSome = true →
      (Bound.handleRequest f req).1 =
        textResponse 500 ("Failed to fetch target URL: ".toList ++ msg)) := by
  constructor
  · intro hS
    cases hE : Worker.extractEncoded req.pathname with
    | none => rw [Worker.handle_no_marker f req hE] at hS; simp at hS
    | some enc =>
      cases hD : decodeURIComponent enc with
      | none =>
        rw [Worker.handle_escape_err f req enc hE hD] at hS; simp at hS
      | some t =>
        cases hT : invalidTarget t with
        | true =>
          rw [Worker.handle_bad_target f req enc t hE hD hT] at hS; simp at hS
        | false =>
          rw [Worker.handle_do_fetch f req enc t hE hD hT,
            hf (mkProxyRequest req t)]
  · intro hS
    cases hE : Bound.extractEncoded req.pathname with
    | none => rw [Bound.handle_short_path f req hE] at hS; simp at hS
    | some enc =>
      cases hD : decodeURIComponent enc with
      | none =>
        rw [Bound.handle_escape_err_bare f req enc hE hD] at hS; simp at hS
      | some t =>
        cases hT : invalidTarget t with
        | true =>
          rw [Bound.handle_bad_target_bare f req enc t hE hD hT] at hS; simp at hS
        | false =>
          rw [Bound.handle_do_fetch_bare f req enc t hE hD hT,
            hf (mkProxyRequest req t)]

/-- Witness for C6: rejecting oracle, valid target paths in both modes. -/
theorem c6_fetch_failure_witness :
    (Worker.handleRequest fetchBoom
        (mkRequest "/proxx/https%3A%2F%2Fexample.com")).1 =
      textResponse 500 ("Failed to fetch target URL: ".toList ++ "boom".toList) ∧
    (Bound.handleRequest fetchBoom
        (mkRequest "/https%3A%2F%2Fexample.com")).1 =
      textResponse 500 ("Failed to fetch target URL: ".toList ++ "boom".toList) :=
  ⟨(c6_fetch_failure fetchBoom (mkRequest "/proxx/https%3A%2F%2Fexample.com")
      ("boom".toList) (fun _ => rfl)).1 (by decide),
   (c6_fetch_failure fetchBoom (mkRequest "/https%3A%2F%2Fexample.com")
      ("boom".toList) (fun _ => rfl)).2 (by decide)⟩

/-- C7: every request that passes extraction, decoding, and scheme
validation (equivalently: whose handling performs a fetch) has its outbound
request built from the inbound method, unmodified header set and body
stream, targeted at the decoded absolute target URL, with redirect
following enabled. -/
theorem c7_proxy_request_construction (f : FetchOracle) (req : JSRequest)
    (resp : JSResponse) (pr : ProxyRequest) :
    (Worker.handleRequest f req = (resp, some pr) →
      pr.method = req.method ∧ pr.headers = req.headers ∧
      pr.body = req.body ∧ pr.redirect = "follow".toList ∧
      (Worker.extractEncoded req.pathname).bind decodeURIComponent =
        some pr.url ∧
      (strStartsWith pr.url ("http://".toList) ||
       strStartsWith pr.url ("https://".toList)) = true) ∧
    (Bound.handleRequest f req = (resp, some pr) →
      pr.method = req.method ∧ pr.headers = req.headers ∧
      pr.body = req.body ∧ pr.redirect = "follow".toList ∧
      (Bound.extractEncoded req.pathname).bind decodeURIComponent =
        some pr.url ∧
      (strStartsWith pr.url ("http://".toList) ||
       strStartsWith pr.url ("https://".toList)) = true) := by
  constructor
  · intro h
    cases hE : Worker.extractEncoded req.pathname with
    | none => rw [Worker.handle_no_marker f req hE] at h; simp at h
    | some enc =>
      cases hD : decodeURIComponent enc with
      | none => rw [Worker.handle_escape_err f req enc hE hD] at h; simp at h
      | some t =>
        cases hT : invalidTarget t with
        | true =>
          rw [Worker.handle_bad_target f req enc t hE hD hT] at h; simp at h
        | false =>
          rw [Worker.handle_do_fetch f req enc t hE hD hT] at h
          have hsch : (strStartsWith t ("http://".toList) ||
              strStartsWith t ("https://".toList)) = true := by
            cases ha : strStartsWith t ("http://".toList) <;>
              cases hb : strStartsWith t ("https://".toList) <;>
                simp_all [invalidTarget]
          have hpr : pr = mkProxyRequest req t := by
            cases hF : f (mkProxyRequest req t) <;> rw [hF] at h <;>
              simpa using (congrArg Prod.snd h).symm
          subst hpr
          refine ⟨rfl, rfl, rfl, rfl, ?_, hsch⟩
          simpa [mkProxyRequest] using hD
  · intro h
    cases hE : Bound.extractEncoded req.pathname with
    | none => rw [Bound.handle_short_path f req hE] at h; simp at h
    | some enc =>
      cases hD : decodeURIComponent enc with
      | none => rw [Bound.handle_escape_err_bare f req enc hE hD] at h; simp at h
      | some t =>
        cases hT : invalidTarget t with
        | true =>
          rw [Bound.handle_bad_target_bare f req enc t hE hD hT] at h; simp at h
        | false =>
          rw [Bound.handle_do_fetch_bare f req enc t hE hD hT] at h
          have hsch : (strStartsWith t ("http://".toList) ||
              strStartsWith t ("https://".toList)) = true := by
            cases ha : strStartsWith t ("http://".toList) <;>
              cases hb : strStartsWith t ("https://".toList) <;>
                simp_all [invalidTarget]
          have hpr : pr = mkProxyRequest req t := by
            cases hF : f (mkProxyRequest req t) <;> rw [hF] at h <;>
              simpa using (congrArg Prod.snd h).symm
          subst hpr
          refine ⟨rfl, rfl, rfl, rfl, ?_, hsch⟩
          simpa [mkProxyRequest] using hD

/-- Witness for C7: in both modes, handling the encoded target
`https://example.com` fetches an outbound request aimed at exactly that
URL. -/
theorem c7_proxy_request_construction_witness :
    ((Worker.extractEncoded
        (mkRequest "/proxx/https%3A%2F%2Fexample.com").pathname).bind
        decodeURIComponent =
      some (mkProxyRequest (mkRequest "/proxx/https%3A%2F%2Fexample.com")
          ("https://example.com".toList)).url) ∧
    ((Bound.extractEncoded
        (mkRequest "/https%3A%2F%2Fexample.com").pathname).bind
        decodeURIComponent =
      some (mkProxyRequest (mkRequest "/https%3A%2F%2Fexample.com")
          ("https://example.com".toList)).url) :=
  ⟨((c7_proxy_request_construction fetchPlainOk
      (mkRequest "/proxx/https%3A%2F%2Fexample.com")
      ⟨200, [], []⟩
      (mkProxyRequest (mkRequest "/proxx/https%3A%2F%2Fexample.com")
        ("https://example.com".toList))).1 (by decide)).2.2.2.2.1,
   ((c7_proxy_request_construction fetchPlainOk
      (mkRequest "/https%3A%2F%2Fexample.com")
      ⟨200, [("Access-Control-Allow-Origin".toList, "*".toList)], []⟩
      (mkProxyRequest (mkRequest "/https%3A%2F%2Fexample.com")
        ("https://example.com".toList))).2 (by decide)).2.2.2.2.1⟩

/-- C8: on every successful upstream fetch the outbound response keeps the
upstream status code and body unchanged, and every header whose name is
not `content-security-policy`, `x-frame-options` or
`Access-Control-Allow-Origin` (case-insensitively) keeps exactly its
upstream values. -/
theorem c8_upstream_passthrough (f : FetchOracle) (req : JSRequest)
    (up : JSResponse) (hf : ∀ pr, f pr = Except.ok up) :
    ((Worker.handleRequest f req).2.isSome = true →
      (Worker.handleRequest f req).1.status = up.status ∧
      (Worker.handleRequest f req).1.body = up.body ∧
      ∀ n : List Char,
        lowerName n ≠ lowerName ("content-security-policy".toList) →
        lowerName n ≠ lowerName ("x-frame-options".toList) →
        lowerName n ≠ lowerName ("Access-Control-Allow-Origin".toList) →
        headersGetAll (Worker.handleRequest f req).1.headers n =
          headersGetAll up.headers n) ∧
    ((Bound.handleRequest f req).2.isSome = true →
      (Bound.handleRequest f req).1.status = up.status ∧
      (Bound.handleRequest f req).1.body = up.body ∧
      ∀ n : List Char,
        lowerName n ≠ lowerName ("content-security-policy".toList) →
        lowerName n ≠ lowerName ("x-frame-options".toList) →
        lowerName n ≠ lowerName ("Access-Control-Allow-Origin".toList) →
        headersGetAll (Bound.handleRequest f req).1.headers n =
          headersGetAll up.headers n) := by
  constructor
  · intro hS
    cases hE : Worker.extractEncoded req.pathname with
    | none => rw [Worker.handle_no_marker f req hE] at hS; simp at hS
    | some enc =>
      cases hD : decodeURIComponent enc with
      | none =>
        rw [Worker.handle_escape_err f req enc hE hD] at hS; simp at hS
      | some t =>
        cases hT : invalidTarget t with
        | true =>
          rw [Worker.handle_bad_target f req enc t hE hD hT] at hS; simp at hS
        | false =>
          have hH := Worker.handle_do_fetch f req enc t hE hD hT
          rw [hf (mkProxyRequest req t)] at hH
          rw [hH]
          refine ⟨rfl, rfl, fun n h1 h2 h3 => ?_⟩
          show headersGetAll
            (headersDelete
              (headersDelete up.headers ("content-security-policy".toList))
              ("x-frame-options".toList)) n = headersGetAll up.headers n
          rw [headersGetAll_delete_of_ne _ _ _ h2,
            headersGetAll_delete_of_ne _ _ _ h1]
  · intro hS
    cases hE : Bound.extractEncoded req.pathname with
    | none => rw [Bound.handle_short_path f req hE] at hS; simp at hS
    | some enc =>
      cases hD : decodeURIComponent enc with
      | none =>
        rw [Bound.handle_escape_err_bare f req enc hE hD] at hS; simp at hS
      | some t =>
        cases hT : invalidTarget t with
        | true =>
          rw [Bound.handle_bad_target_bare f req enc t hE hD hT] at hS; simp at hS
        | false =>
          have hH := Bound.handle_do_fetch_bare f req enc t hE hD hT
          rw [hf (mkProxyRequest req t)] at hH
          rw [hH]
          refine ⟨rfl, rfl, fun n h1 h2 h3 => ?_⟩
          show headersGetAll
            (headersSet
              (headersDelete
                (headersDelete up.headers ("content-security-policy".toList))
                ("x-frame-options".toList))
              ("Access-Control-Allow-Origin".toList) ("*".toList)) n =
            headersGetAll up.headers n
          rw [headersGetAll_set_of_ne _ _ _ _ h3,
            headersGetAll_delete_of_ne _ _ _ h2,
            headersGetAll_delete_of_ne _ _ _ h1]

/-- Witness for C8: the sample upstream response passes through both modes
with status, body and its `Content-Type` header intact. -/
theorem c8_upstream_passthrough_witness :
    ((Worker.handleRequest (fetchOkWith upSample)
        (mkRequest "/proxx/https%3A%2F%2Fexample.com")).1.status =
          upSample.status ∧
      headersGetAll (Worker.handleRequest (fetchOkWith upSample)
        (mkRequest "/proxx/https%3A%2F%2Fexample.com")).1.headers
        ("Content-Type".toList) =
          headersGetAll upSample.headers ("Content-Type".toList)) ∧
    ((Bound.handleRequest (fetchOkWith upSample)
        (mkRequest "/https%3A%2F%2Fexample.com")).1.status =
          upSample.status ∧
      headersGetAll (Bound.handleRequest (fetchOkWith upSample)
        (mkRequest "/https%3A%2F%2Fexample.com")).1.headers
        ("Content-Type".toList) =
          headersGetAll upSample.headers ("Content-Type".toList)) := by
  have hW := (c8_upstream_passthrough (fetchOkWith upSample)
    (mkRequest "/proxx/https%3A%2F%2Fexample.com") upSample
    (fun _ => rfl)).1 (by decide)
  have hB := (c8_upstream_passthrough (fetchOkWith upSample)
    (mkRequest "/https%3A%2F%2Fexample.com") upSample
    (fun _ => rfl)).2 (by decide)
  exact ⟨⟨hW.1, hW.2.2 ("Content-Type".toList) (by decide) (by decide)
      (by decide)⟩,
    ⟨hB.1, hB.2.2 ("Content-Type".toList) (by decide) (by decide)
      (by decide)⟩⟩

/-- Counterexample for C1 as stated: in prefix-marker mode
(`src/src/worker.js`) a successful upstream fetch — here of a response with
no headers at all — produces an outbound response with NO
`Access-Control-Allow-Origin` header, because that variant never sets it. -/
theorem c1_counterexample :
    (Worker.handleRequest fetchPlainOk
        (mkRequest "/proxx/https%3A%2F%2Fexample.com")).2.isSome = true ∧
    headersGetAll (Worker.handleRequest fetchPlainOk
        (mkRequest "/proxx/https%3A%2F%2Fexample.com")).1.headers
      ("Access-Control-Allow-Origin".toList) = [] := by
  decide

/-- C1 amended: for every successful upstream fetch, in both modes the
outbound response contains no `content-security-policy` and no
`x-frame-options` header; `Access-Control-Allow-Origin: *` is added in
bare-path mode only, while prefix-marker mode passes any upstream
`Access-Control-Allow-Origin` values through untouched (so none is present
unless the upstream sent one). -/
theorem c1_amended_header_mutations (f : FetchOracle) (req : JSRequest)
    (up : JSResponse) (hf : ∀ pr, f pr = Except.ok up) :
    ((Worker.handleRequest f req).2.isSome = true →
      headersGetAll (Worker.handleRequest f req).1.headers
        ("content-security-policy".toList) = [] ∧
      headersGetAll (Worker.handleRequest f req).1.headers
        ("x-frame-options".toList) = [] ∧
      headersGetAll (Worker.handleRequest f req).1.headers
        ("Access-Control-Allow-Origin".toList) =
        headersGetAll up.headers ("Access-Control-Allow-Origin".toList)) ∧
    ((Bound.handleRequest f req).2.isSome = true →
      headersGetAll (Bound.handleRequest f req).1.headers
        ("content-security-policy".toList) = [] ∧
      headersGetAll (Bound.handleRequest f req).1.headers
        ("x-frame-options".toList) = [] ∧
      headersGetAll (Bound.handleRequest f req).1.headers
        ("Access-Control-Allow-Origin".toList) = ["*".toList]) := by
  constructor
  · intro hS
    cases hE : Worker.extractEncoded req.pathname with
    | none => rw [Worker.handle_no_marker f req hE] at hS; simp at hS
    | some enc =>
      cases hD : decodeURIComponent enc with
      | none =>
        rw [Worker.handle_escape_err f req enc hE hD] at hS; simp at hS
      | some t =>
        cases hT : invalidTarget t with
        | true =>
          rw [Worker.handle_bad_target f req enc t hE hD hT] at hS; simp at hS
        | false =>
          have hH := Worker.handle_do_fetch f req enc t hE hD hT
          rw [hf (mkProxyRequest req t)] at hH
          rw [hH]
          refine ⟨?_, ?_, ?_⟩
          · show headersGetAll
              (headersDelete
                (headersDelete up.headers ("content-security-policy".toList))
                ("x-frame-options".toList))
              ("content-security-policy".toList) = []
            rw [headersGetAll_delete_of_ne _ _ _ (by decide),
              headersGetAll_delete_self]
          · show headersGetAll
              (headersDelete
                (headersDelete up.headers ("content-security-policy".toList))
                ("x-frame-options".toList)) ("x-frame-options".toList) = []
            rw [headersGetAll_delete_self]
          · show headersGetAll
              (headersDelete
                (headersDelete up.headers ("content-security-policy".toList))
                ("x-frame-options".toList))
              ("Access-Control-Allow-Origin".toList) =
              headersGetAll up.headers ("Access-Control-Allow-Origin".toList)
            rw [headersGetAll_delete_of_ne _ _ _ (by decide),
              headersGetAll_delete_of_ne _ _ _ (by decide)]
  · intro hS
    cases hE : Bound.extractEncoded req.pathname with
    | none => rw [Bound.handle_short_path f req hE] at hS; simp at hS
    | some enc =>
      cases hD : decodeURIComponent enc with
      | none =>
        rw [Bound.handle_escape_err_bare f req enc hE hD] at hS; simp at hS
      | some t =>
        cases hT : invalidTarget t with
        | true =>
          rw [Bound.handle_bad_target_bare f req enc t hE hD hT] at hS; simp at hS
        | false =>
          have hH := Bound.handle_do_fetch_bare f req enc t hE hD hT
          rw [hf (mkProxyRequest req t)] at hH
          rw [hH]
          refine ⟨?_, ?_, ?_⟩
          · show headersGetAll
              (headersSet
                (headersDelete
                  (headersDelete up.headers
                    ("content-security-policy".toList))
                  ("x-frame-options".toList))
                ("Access-Control-Allow-Origin".toList) ("*".toList))
              ("content-security-policy".toList) = []
            rw [headersGetAll_set_of_ne _ _ _ _ (by decide),
              headersGetAll_delete_of_ne _ _ _ (by decide),
              headersGetAll_delete_self]
          · show headersGetAll
              (headersSet
                (headersDelete
                  (headersDelete up.headers
                    ("content-security-policy".toList))
                  ("x-frame-options".toList))
                ("Access-Control-Allow-Origin".toList) ("*".toList))
              ("x-frame-options".toList) = []
            rw [headersGetAll_set_of_ne _ _ _ _ (by decide),
              headersGetAll_delete_self]
          · show headersGetAll
              (headersSet
                (headersDelete
                  (headersDelete up.headers
                    ("content-security-policy".toList))
                  ("x-frame-options".toList))
                ("Access-Control-Allow-Origin".toList) ("*".toList))
              ("Access-Control-Allow-Origin".toList) = ["*".toList]
            rw [headersGetAll_set_self]

/-- Witness for the amended C1 at the sample upstream response (which
carries both stripped headers in their original casing). -/
theorem c1_amended_header_mutations_witness :
    (headersGetAll (Worker.handleRequest (fetchOkWith upSample)
        (mkRequest "/proxx/https%3A%2F%2Fexample.com")).1.headers
      ("content-security-policy".toList) = [] ∧
     headersGetAll (Worker.handleRequest (fetchOkWith upSample)
        (mkRequest "/proxx/https%3A%2F%2Fexample.com")).1.headers
      ("Access-Control-Allow-Origin".toList) =
        headersGetAll upSample.headers
          ("Access-Control-Allow-Origin".toList)) ∧
    headersGetAll (Bound.handleRequest (fetchOkWith upSample)
        (mkRequest "/https%3A%2F%2Fexample.com")).1.headers
      ("Access-Control-Allow-Origin".toList) = ["*".toList] := by
  have hW := (c1_amended_header_mutations (fetchOkWith upSample)
    (mkRequest "/proxx/https%3A%2F%2Fexample.com") upSample
    (fun _ => rfl)).1 (by decide)
  have hB := (c1_amended_header_mutations (fetchOkWith upSample)
    (mkRequest "/https%3A%2F%2Fexample.com") upSample
    (fun _ => rfl)).2 (by decide)
  exact ⟨⟨hW.1, hW.2.2⟩, hB.2.2⟩

/-- C9: the scheme check is case-sensitive — a decoded target whose
lowercasing starts with `http://` or `https://` but which does not itself
start with either lowercase scheme is rejected with the 400
invalid-target-format response in both modes, with no fetch. -/
theorem c9_scheme_case_sensitive (f : FetchOracle) (req : JSRequest)
    (enc t : List Char) (hD : decodeURIComponent enc = some t)
    (hlc : (strStartsWith (lowerName t) ("http://".toList) ||
            strStartsWith (lowerName t) ("https://".toList)) = true)
    (hh : strStartsWith t ("http://".toList) = false)
    (hhs : strStartsWith t ("https://".toList) = false) :
    (Worker.extractEncoded req.pathname = some enc →
      Worker.handleRequest f req =
        (textResponse 400 ("Invalid target URL format.".toList), none)) ∧
    (Bound.extractEncoded req.pathname = some enc →
      Bound.handleRequest f req =
        (textResponse 400
          ("Invalid target URL format. Must start with http:// or https://".toList),
         none)) := by
  have hT : invalidTarget t = true := by
    simp only [invalidTarget, Bool.or_eq_true, Bool.and_eq_true,
      Bool.not_eq_true', List.isEmpty_eq_true]
    exact Or.inr ⟨hh, hhs⟩
  exact ⟨fun hE => Worker.handle_bad_target f req enc t hE hD hT,
         fun hE => Bound.handle_bad_target_bare f req enc t hE hD hT⟩

/-- Witness for C9 at the target `HTTP://example.com`. -/
theorem c9_scheme_case_sensitive_witness :
    (Worker.handleRequest fetchPlainOk
        (mkRequest "/proxx/HTTP%3A%2F%2Fexample.com") =
      (textResponse 400 ("Invalid target URL format.".toList), none)) ∧
    (Bound.handleRequest fetchPlainOk
        (mkRequest "/HTTP%3A%2F%2Fexample.com") =
      (textResponse 400
        ("Invalid target URL format. Must start with http:// or https://".toList),
       none)) :=
  ⟨(c9_scheme_case_sensitive fetchPlainOk
      (mkRequest "/proxx/HTTP%3A%2F%2Fexample.com")
      ("HTTP%3A%2F%2Fexample.com".toList) ("HTTP://example.com".toList)
      (by decide) (by decide) (by decide) (by decide)).1 (by decide),
   (c9_scheme_case_sensitive fetchPlainOk
      (mkRequest "/HTTP%3A%2F%2Fexample.com")
      ("HTTP%3A%2F%2Fexample.com".toList) ("HTTP://example.com".toList)
      (by decide) (by decide) (by decide) (by decide)).2 (by decide)⟩

/-- C10: in prefix-marker mode a path whose content after the first
`/proxx/` marker is empty yields the 400 invalid-target-format response
(not the fallback), with no fetch; and the fallback-with-no-fetch result
is produced exactly when the marker is absent from the path. -/
theorem c10_empty_after_marker (f : FetchOracle) (req : JSRequest) :
    (∀ i, substrIndex Worker.proxyMarker req.pathname = some i →
      req.pathname.drop (i + Worker.proxyMarker.length) = [] →
      Worker.handleRequest f req =
        (textResponse 400 ("Invalid target URL format.".toList), none)) ∧
    (Worker.handleRequest f req =
        (Worker.createRootResponse req.hostname, none) ↔
      substrIndex Worker.proxyMarker req.pathname = none) := by
  constructor
  · intro i hI hDrop
    have hE : Worker.extractEncoded req.pathname = some [] := by
      simp [Worker.extractEncoded, hI, hDrop]
    exact Worker.handle_bad_target f req [] [] hE rfl rfl
  · constructor
    · intro h
      cases hIdx : substrIndex Worker.proxyMarker req.pathname with
      | none => rfl
      | some i =>
        have hE : Worker.extractEncoded req.pathname =
            some (req.pathname.drop (i + Worker.proxyMarker.length)) := by
          simp [Worker.extractEncoded, hIdx]
        cases hD : decodeURIComponent
            (req.pathname.drop (i + Worker.proxyMarker.length)) with
        | none =>
          rw [Worker.handle_escape_err f req _ hE hD] at h
          have hst := congrArg (fun p => p.1.status) h
          simp [textResponse, Worker.createRootResponse] at hst
        | some t =>
          cases hT : invalidTarget t with
          | true =>
            rw [Worker.handle_bad_target f req _ t hE hD hT] at h
            have hst := congrArg (fun p => p.1.status) h
            simp [textResponse, Worker.createRootResponse] at hst
          | false =>
            rw [Worker.handle_do_fetch f req _ t hE hD hT] at h
            have hsnd := congrArg Prod.snd h
            cases hF : f (mkProxyRequest req t) <;> rw [hF] at hsnd <;>
              simp at hsnd
    · intro hI
      exact Worker.handle_no_marker f req
        (by simp [Worker.extractEncoded, hI])

/-- Witness for C10: the path `/proxx/` itself gives the 400 response, and
a markerless path gives the fallback. -/
theorem c10_empty_after_marker_witness :
    Worker.handleRequest fetchPlainOk (mkRequest "/proxx/") =
      (textResponse 400 ("Invalid target URL format.".toList), none) ∧
    Worker.handleRequest fetchPlainOk (mkRequest "/nomarker") =
      (Worker.createRootResponse (mkRequest "/nomarker").hostname, none) :=
  ⟨(c10_empty_after_marker fetchPlainOk (mkRequest "/proxx/")).1 0
      (by decide) (by decide),
   (c10_empty_after_marker fetchPlainOk (mkRequest "/nomarker")).2.mpr
      (by decide)⟩
